import Mathlib

/-!
Shallow embedding of the collaborative-filtering core of the
Fashion_Recommend_System repository (`src/recommender/model.py`),
together with theorems settling the spec's claims about it.

Modelling conventions:
* A ratings table is a `List RatingRecord`; ids are `Nat`, ratings are `ℚ`
  (the Python code works with float64, but every claim is about exact
  values and orderings, so exact arithmetic is the faithful reading).
* `pandas.pivot_table(index, columns, values, aggfunc="mean")` groups by
  the index/column keys (sorted ascending, duplicates removed) and takes
  the arithmetic mean of the ratings in each group; a cell with no
  backing record is `none` (NaN in pandas).
* `sklearn.metrics.pairwise.cosine_similarity` normalises each row,
  mapping an all-zero row to itself (its zero norm is replaced by 1), and
  takes pairwise dot products; so `cosineSim u v` is
  `dot u v / (‖u‖ * ‖v‖)` with the convention that it is `0` whenever
  either vector is zero.  `Real.sqrt` forces the similarity values into
  `ℝ`; the guard is kept at the `ℚ` level (`dotQ u u = 0` iff `‖u‖ = 0`)
  so that hypotheses stay decidable.
* `Series.sort_values(ascending=False)` in pandas is implemented as a
  stable ascending argsort whose index order is then reversed
  (`pandas.core.sorting.nargsort`); for the small rows exercised here the
  underlying numpy sort is insertion sort, which is stable.  It is
  embedded as `sortValuesDesc`: a stable ascending insertion sort
  followed by `List.reverse`.  Consequently equal values appear in
  reverse index order in the descending result.
* The ranking functions take the similarity matrix as a parameter, as in
  the Python code, so they are generic over any linearly ordered entry
  type; the cosine matrices instantiate it with `ℝ`, and concrete
  evaluations instantiate it with `ℚ`.  `.loc` lookups are modelled by
  the matrix's total `entry` function; the claims only exercise ids that
  are present in the relevant index.
-/

/-- One row of the ratings table: `(User_ID, Item_ID, Rating)`.
`Category` and `Price` are unused by the core and omitted. -/
structure RatingRecord where
  user : Nat
  item : Nat
  rating : ℚ
deriving DecidableEq

/-- The user×item rating matrix produced by `build_pivot_table`:
row index, column index, and a cell map where `none` is pandas `NaN`. -/
structure Pivot where
  users : List Nat
  items : List Nat
  cell : Nat → Nat → Option ℚ

/-- All ratings recorded for the pair `(u, i)`, in table order. -/
def ratingsFor (ratings : List RatingRecord) (u i : Nat) : List ℚ :=
  (ratings.filter (fun r => r.user == u && r.item == i)).map RatingRecord.rating

/-- The ascending-sorted list of distinct ids occurring in `l`: how a
pandas groupby forms its sorted key index. -/
def sortedDedup (l : List Nat) : List Nat :=
  List.insertionSort (· ≤ ·) l.dedup

/-- Embedding of `build_pivot_table` (`model.py` lines 10-18):
`ratings_df.pivot_table(index="User_ID", columns="Item_ID",
values="Rating", aggfunc="mean")`.  Row/column indexes are the sorted
distinct ids; each populated cell is the arithmetic mean of its group. -/
def build_pivot_table (ratings : List RatingRecord) : Pivot where
  users := sortedDedup (ratings.map RatingRecord.user)
  items := sortedDedup (ratings.map RatingRecord.item)
  cell u i :=
    let rs := ratingsFor ratings u i
    if rs.isEmpty then none else some (rs.sum / (rs.length : ℚ))

/-- Dot product of two rating vectors. -/
def dotQ (u v : List ℚ) : ℚ := (List.zipWith (· * ·) u v).sum

/-- Cosine similarity as computed by sklearn's `cosine_similarity`:
`u·v / (‖u‖‖v‖)`, with value `0` whenever either vector is zero
(sklearn's `normalize` maps a zero row to itself). -/
noncomputable def cosineSim (u v : List ℚ) : ℝ :=
  if dotQ u u = 0 ∨ dotQ v v = 0 then 0
  else (dotQ u v : ℝ) / (Real.sqrt (dotQ u u) * Real.sqrt (dotQ v v))

/-- A similarity matrix: a single id list indexing rows and columns, and
an entry map.  Generic in the entry type so the ranking functions can be
evaluated on `ℚ` matrices while the cosine matrices live in `ℝ`. -/
structure SimMatrix (α : Type) where
  ids : List Nat
  entry : Nat → Nat → α

/-- Row vector of user `u` in the pivot with absent cells filled by `0`
(`pivot.fillna(0)` followed by taking row `u`). -/
def rowVec (p : Pivot) (u : Nat) : List ℚ :=
  p.items.map (fun i => (p.cell u i).getD 0)

/-- Column vector of item `i` in the pivot with absent cells filled by
`0` (`pivot.fillna(0).T` row `i`). -/
def colVec (p : Pivot) (i : Nat) : List ℚ :=
  p.users.map (fun u => (p.cell u i).getD 0)

/-- The matrix `compute_user_similarity` builds on its success path:
cosine similarity of the zero-filled pivot rows, indexed by the pivot's
row index on both axes. -/
noncomputable def userSimilarityEntries (p : Pivot) : SimMatrix ℝ where
  ids := p.users
  entry a b := cosineSim (rowVec p a) (rowVec p b)

/-- The matrix `compute_item_similarity` builds on its success path:
cosine similarity of the zero-filled pivot columns, indexed by the
pivot's column index on both axes. -/
noncomputable def itemSimilarityEntries (p : Pivot) : SimMatrix ℝ where
  ids := p.items
  entry a b := cosineSim (colVec p a) (colVec p b)

/-- Embedding of `compute_user_similarity` (`model.py` lines 21-24).
sklearn's `cosine_similarity` first validates its input with
`check_array` (defaults `ensure_min_samples=1`, `ensure_min_features=1`)
and raises `ValueError` when the zero-filled pivot has no rows or no
columns; the raise is modelled as `none`.  Otherwise it returns the
cosine matrix of the pivot rows, reindexed by `pivot.index` on both
axes. -/
noncomputable def compute_user_similarity (p : Pivot) : Option (SimMatrix ℝ) :=
  if p.users = [] ∨ p.items = [] then none else some (userSimilarityEntries p)

/-- Embedding of `compute_item_similarity` (`model.py` lines 27-30).
The same `check_array` validation applied to the transposed zero-filled
pivot: `ValueError` (modelled as `none`) when the pivot has no columns
or no rows, otherwise the cosine matrix of the pivot columns, reindexed
by `pivot.columns` on both axes. -/
noncomputable def compute_item_similarity (p : Pivot) : Option (SimMatrix ℝ) :=
  if p.items = [] ∨ p.users = [] then none else some (itemSimilarityEntries p)

/-- A similarity matrix with an empty index, over `ℚ`. -/
def emptySimQ : SimMatrix ℚ := ⟨[], fun _ _ => 0⟩

/-- The similarity row of `a` as an (id, value) series in index order
(`similarity_df.loc[a]`). -/
def simPairs {α : Type} (M : SimMatrix α) (a : Nat) : List (Nat × α) :=
  M.ids.map (fun v => (v, M.entry a v))

/-- Embedding of `Series.sort_values(ascending=False)`: stable ascending sort on the
values, then reverse (pandas `nargsort` reverses the ascending argsort
for a descending sort). -/
def sortValuesDesc {α : Type} [LinearOrder α] (l : List (Nat × α)) : List (Nat × α) :=
  (List.insertionSort (fun x y => x.2 ≤ y.2) l).reverse

/-- The similarity row of `a`, sorted by descending similarity:
`similarity_df.loc[a].sort_values(ascending=False)`. -/
def sortedRow {α : Type} [LinearOrder α] (M : SimMatrix α) (a : Nat) : List (Nat × α) :=
  sortValuesDesc (simPairs M a)

/-- The code's `similar_users` variable (`model.py` line 43): the
descending-sorted similarity row with its first entry dropped
(`.iloc[1:]`), projected to ids.  This is the neighbor walk of
`recommend_for_user`. -/
def similar_users {α : Type} [LinearOrder α] (M : SimMatrix α) (uid : Nat) : List Nat :=
  ((sortedRow M uid).drop 1).map Prod.fst

/-- The code's `high_rated_items` (`model.py` lines 47-48): the items a
neighbor `v` rated strictly above `t`, in column order
(`user_ratings[user_ratings > min_rating_threshold].index.tolist()`;
a NaN cell compares false). -/
def high_rated_items (p : Pivot) (v : Nat) (t : ℚ) : List Nat :=
  p.items.filter (fun i =>
    match p.cell v i with
    | some r => decide (t < r)
    | none => false)

/-- Helper for `dict.fromkeys`-style deduplication. -/
def dedupFirstAux : List Nat → List Nat → List Nat
  | _, [] => []
  | seen, a :: l =>
    if a ∈ seen then dedupFirstAux seen l else a :: dedupFirstAux (a :: seen) l

/-- Embedding of `list(dict.fromkeys(recommendations))`: deduplicate keeping the first
occurrence of each id. -/
def dedupFirst (l : List Nat) : List Nat := dedupFirstAux [] l

/-- Embedding of `recommend_for_user` (`model.py` lines 33-55): empty for
an unknown user; otherwise walk `similar_users`, concatenate each
neighbor's `high_rated_items`, deduplicate keeping first occurrences,
drop items already rated by `uid`, and truncate to `n`. -/
def recommend_for_user {α : Type} [LinearOrder α]
    (uid : Nat) (p : Pivot) (M : SimMatrix α) (n : Nat) (t : ℚ) : List Nat :=
  if uid ∈ p.users then
    let recs := (similar_users M uid).flatMap (fun v => high_rated_items p v t)
    let alreadyRated := p.items.filter (fun i => (p.cell uid i).isSome)
    ((dedupFirst recs).filter (fun i => decide (i ∉ alreadyRated))).take n
  else []

/-- Embedding of `recommend_similar_items` (`model.py` lines 58-67):
empty for an unknown item; otherwise the descending-sorted similarity
row with its first entry dropped (`.iloc[1:]`), truncated to `n`. -/
def recommend_similar_items {α : Type} [LinearOrder α]
    (iid : Nat) (M : SimMatrix α) (n : Nat) : List Nat :=
  if iid ∈ M.ids then (((sortedRow M iid).drop 1).map Prod.fst).take n
  else []

/-- The ranking the spec describes: all ids other than `a`, sorted by
descending similarity to `a` (with the same reversed stable sort as the
code, so equal similarities appear in reverse index order). -/
def rankOthersDesc {α : Type} [LinearOrder α] (M : SimMatrix α) (a : Nat) : List Nat :=
  (sortValuesDesc ((M.ids.filter (fun v => v != a)).map
    (fun v => (v, M.entry a v)))).map Prod.fst

/-! ### Concrete inputs used by witnesses and counterexamples -/

/-- The spec's end-to-end example table:
`[(1,10,5),(1,20,1),(2,10,5),(2,20,5),(2,30,4)]`. -/
def pivotE : Pivot :=
  build_pivot_table [⟨1, 10, 5⟩, ⟨1, 20, 1⟩, ⟨2, 10, 5⟩, ⟨2, 20, 5⟩, ⟨2, 30, 4⟩]

/-- A user-similarity matrix for `pivotE`'s two users. -/
def simE : SimMatrix ℚ := ⟨[1, 2], fun a b => if a = b then 1 else 1 / 2⟩

/-- Table with one duplicated `(user, item)` pair: `[(1,1,2),(1,1,4)]`. -/
def pivotDup : Pivot := build_pivot_table [⟨1, 1, 2⟩, ⟨1, 1, 4⟩]

/-- Table where a neighbor (user 2) rated item 10 exactly `4` and item
20 at `4.5`. -/
def pivotThr : Pivot := build_pivot_table [⟨2, 10, 4⟩, ⟨2, 20, 9 / 2⟩]

/-- A hand-built pivot with one populated row (user 1) and one
all-absent row (user 2), exercising the zero-vector convention. -/
def pivotZ : Pivot :=
  ⟨[1, 2], [10], fun u i => if u = 1 ∧ i = 10 then some 3 else none⟩

/-- Two users with proportional rating vectors (`[4]` and `[5]` on the
single item 10): their cosine similarity ties with self-similarity. -/
def pivotTie : Pivot := build_pivot_table [⟨1, 10, 4⟩, ⟨2, 10, 5⟩]

/-- The user-similarity values of `pivotTie` as an exact `ℚ` matrix:
every entry is `1`. -/
def simTie : SimMatrix ℚ := ⟨[1, 2], fun _ _ => 1⟩

/-- A similarity matrix whose `uid = 1` row has a strict maximum at the
diagonal: `(1, 2, 3) ↦ (9, 3, 7)`. -/
def simMax : SimMatrix ℚ :=
  ⟨[1, 2, 3], fun _ b => if b = 1 then 9 else if b = 2 then 3 else 7⟩

/-- One user rating items 10, 20, 30: all three item column vectors are
proportional, so all item-item cosine similarities are `1`. -/
def pivotA : Pivot := build_pivot_table [⟨1, 10, 4⟩, ⟨1, 20, 5⟩, ⟨1, 30, 2⟩]

/-- The item-similarity values of `pivotA` as an exact `ℚ` matrix. -/
def simA : SimMatrix ℚ := ⟨[10, 20, 30], fun _ _ => 1⟩

/-- Items 20 and 30 have proportional columns (`[0,1]` and `[0,2]`), so
both have similarity `4/5` to item 10 (column `[3,4]`): a tie below the
diagonal entry. -/
def pivotB : Pivot :=
  build_pivot_table [⟨1, 10, 3⟩, ⟨2, 10, 4⟩, ⟨2, 20, 1⟩, ⟨2, 30, 2⟩]

/-- The row of item 10 in `pivotB`'s item-similarity matrix as an exact
`ℚ` matrix. -/
def simB : SimMatrix ℚ :=
  ⟨[10, 20, 30], fun a b => if a = b then 1 else if a = 10 ∨ b = 10 then 4 / 5 else 1⟩

/-- An item-similarity matrix whose `iid = 10` row has a strict maximum
at the diagonal: `(10, 20, 30) ↦ (9, 3, 7)`. -/
def simMaxI : SimMatrix ℚ :=
  ⟨[10, 20, 30], fun _ b => if b = 10 then 9 else if b = 20 then 3 else 7⟩

/-! ### Basic lemmas about the pivot builder -/

lemma sortedDedup_sorted (l : List Nat) : (sortedDedup l).Sorted (· ≤ ·) :=
  List.sorted_insertionSort _ _

lemma sortedDedup_nodup (l : List Nat) : (sortedDedup l).Nodup :=
  (List.perm_insertionSort _ _).nodup_iff.mpr l.nodup_dedup

lemma mem_sortedDedup {x : Nat} {l : List Nat} : x ∈ sortedDedup l ↔ x ∈ l :=
  (List.perm_insertionSort _ _).mem_iff.trans (List.mem_dedup)

lemma ratingsFor_ne_nil {ratings : List RatingRecord} {u i : Nat}
    (h : ∃ r ∈ ratings, r.user = u ∧ r.item = i) : ratingsFor ratings u i ≠ [] := by
  obtain ⟨r, hr, h1, h2⟩ := h
  have : r.rating ∈ ratingsFor ratings u i := by
    refine List.mem_map.mpr ⟨r, List.mem_filter.mpr ⟨hr, ?_⟩, rfl⟩
    simp [h1, h2]
  exact List.ne_nil_of_mem this

lemma ratingsFor_eq_nil {ratings : List RatingRecord} {u i : Nat}
    (h : ∀ r ∈ ratings, ¬(r.user = u ∧ r.item = i)) : ratingsFor ratings u i = [] := by
  have : ratings.filter (fun r => r.user == u && r.item == i) = [] := by
    rw [List.filter_eq_nil_iff]
    intro r hr
    simpa using h r hr
  simp [ratingsFor, this]

/-- Claim C6: the pivot's row index is the ascending-sorted set of
distinct user ids and its column index the ascending-sorted set of
distinct item ids of the input; duplicate `(user, item)` records are
aggregated by arithmetic mean (`[(1,1,2),(1,1,4)]` gives cell `(1,1) = 3`),
and a cell with no backing record is absent (`none`), not zero. -/
theorem claim_C6 (ratings : List RatingRecord) :
    (build_pivot_table ratings).users.Sorted (· ≤ ·) ∧
    (build_pivot_table ratings).users.Nodup ∧
    (∀ u, u ∈ (build_pivot_table ratings).users ↔ ∃ r ∈ ratings, r.user = u) ∧
    (build_pivot_table ratings).items.Sorted (· ≤ ·) ∧
    (build_pivot_table ratings).items.Nodup ∧
    (∀ i, i ∈ (build_pivot_table ratings).items ↔ ∃ r ∈ ratings, r.item = i) ∧
    (∀ u i, (∃ r ∈ ratings, r.user = u ∧ r.item = i) →
      (build_pivot_table ratings).cell u i =
        some ((ratingsFor ratings u i).sum / ((ratingsFor ratings u i).length : ℚ))) ∧
    (∀ u i, (∀ r ∈ ratings, ¬(r.user = u ∧ r.item = i)) →
      (build_pivot_table ratings).cell u i = none) ∧
    pivotDup.cell 1 1 = some 3 := by
  refine ⟨sortedDedup_sorted _, sortedDedup_nodup _, ?_, sortedDedup_sorted _,
    sortedDedup_nodup _, ?_, ?_, ?_, ?_⟩
  · intro u
    rw [build_pivot_table]
    simp only [mem_sortedDedup, List.mem_map]
  · intro i
    rw [build_pivot_table]
    simp only [mem_sortedDedup, List.mem_map]
  · intro u i h
    have hne := ratingsFor_ne_nil h
    simp [build_pivot_table, List.isEmpty_iff, hne]
  · intro u i h
    have hnil := ratingsFor_eq_nil h
    simp [build_pivot_table, hnil]
  · norm_num [pivotDup, build_pivot_table, ratingsFor]

/-- Witness for C6 at the duplicate-average table `[(1,1,2),(1,1,4)]`. -/
theorem claim_C6_witness :
    (build_pivot_table [⟨1, 1, 2⟩, ⟨1, 1, 4⟩] : Pivot).cell 1 2 = none ∧
    pivotDup.cell 1 1 = some 3 :=
  ⟨(claim_C6 [⟨1, 1, 2⟩, ⟨1, 1, 4⟩]).2.2.2.2.2.2.2.1 1 2 (by decide),
   (claim_C6 []).2.2.2.2.2.2.2.2⟩

/-- Claim C1 evaluated at its failing input, the empty ratings table.
The pivot half of the claim holds: both index sets are empty.  The
similarity half does not: sklearn's `cosine_similarity` raises
`ValueError` (via `check_array` with `ensure_min_samples=1`) on the
`(0,0)` zero-filled pivot, so `compute_user_similarity` and
`compute_item_similarity` fail (`none`) instead of returning empty
matrices.  The ranking functions themselves do return `[]` on empty
structures: `recommend_for_user` for any matrix over the empty pivot,
and `recommend_similar_items` for an empty-index matrix. -/
theorem claim_C1 :
    (build_pivot_table []).users = [] ∧ (build_pivot_table []).items = [] ∧
    compute_user_similarity (build_pivot_table []) = none ∧
    compute_item_similarity (build_pivot_table []) = none ∧
    (∀ (uid n : Nat) (t : ℚ) (M : SimMatrix ℚ),
      recommend_for_user uid (build_pivot_table []) M n t = []) ∧
    (∀ iid n, recommend_similar_items iid emptySimQ n = []) := by
  refine ⟨rfl, rfl, ?_, ?_, ?_, ?_⟩
  · simp [compute_user_similarity, build_pivot_table, sortedDedup]
  · simp [compute_item_similarity, build_pivot_table, sortedDedup]
  · intro uid n t M
    simp [recommend_for_user, build_pivot_table, sortedDedup]
  · intro iid n
    simp [recommend_similar_items, emptySimQ]

/-- Claim C9: an unknown user id (not in the pivot's row index) makes
`recommend_for_user` return `[]`, and an unknown item id (not in the
similarity matrix's index) makes `recommend_similar_items` return `[]`;
both are ordinary returns of the total functions, not errors. -/
theorem claim_C9 {α : Type} [LinearOrder α] (p : Pivot) (M Mi : SimMatrix α)
    (uid iid n m : Nat) (t : ℚ) (hu : uid ∉ p.users) (hi : iid ∉ Mi.ids) :
    recommend_for_user uid p M n t = [] ∧ recommend_similar_items iid Mi m = [] :=
  ⟨by simp [recommend_for_user, hu], by simp [recommend_similar_items, hi]⟩

/-- Witness for C9: user 5 and item 7 are absent from the example
structures. -/
theorem claim_C9_witness :
    recommend_for_user 5 pivotE simE 3 4 = [] ∧
    recommend_similar_items 7 simE 2 = [] :=
  claim_C9 pivotE simE simE 5 7 3 2 4 (by decide) (by decide)

/-- Claim C10 (implicit): with `n_recommendations = 0` both ranking
functions return the empty list for every pivot, similarity matrix and
identifier. -/
theorem claim_C10 {α : Type} [LinearOrder α] (uid iid : Nat) (p : Pivot)
    (M Mi : SimMatrix α) (t : ℚ) :
    recommend_for_user uid p M 0 t = [] ∧ recommend_similar_items iid Mi 0 = [] := by
  constructor
  · unfold recommend_for_user
    split <;> simp
  · unfold recommend_similar_items
    split <;> simp

/-- Claim C4: in `recommend_for_user`'s candidate collection
(`high_rated_items`), a neighbor's item rated exactly at the threshold
is excluded and an item rated strictly above it is included. -/
theorem claim_C4 (p : Pivot) (v i : Nat) (t r : ℚ)
    (hi : i ∈ p.items) (hc : p.cell v i = some r) :
    (r = t → i ∉ high_rated_items p v t) ∧ (t < r → i ∈ high_rated_items p v t) := by
  constructor
  · rintro rfl hmem
    have h := (List.mem_filter.mp hmem).2
    rw [hc] at h
    exact absurd (of_decide_eq_true h) (lt_irrefl _)
  · intro hlt
    refine List.mem_filter.mpr ⟨hi, ?_⟩
    rw [hc]
    exact decide_eq_true hlt

/-- Witness for C4 at threshold `4`: the neighbor's rating `4` on item
10 is excluded, the rating `4.5` on item 20 included. -/
theorem claim_C4_witness :
    10 ∉ high_rated_items pivotThr 2 4 ∧ 20 ∈ high_rated_items pivotThr 2 4 := by
  have h1 : pivotThr.cell 2 10 = some 4 := by
    norm_num [pivotThr, build_pivot_table, ratingsFor]
  have h2 : pivotThr.cell 2 20 = some (9 / 2) := by
    norm_num [pivotThr, build_pivot_table, ratingsFor]
  exact ⟨(claim_C4 pivotThr 2 10 4 4 (by decide) h1).1 rfl,
         (claim_C4 pivotThr 2 20 4 (9 / 2) (by decide) h2).2 (by norm_num)⟩

lemma mem_of_mem_dedupFirstAux :
    ∀ (seen l : List Nat) (x : Nat), x ∈ dedupFirstAux seen l → x ∈ l := by
  intro seen l
  induction l generalizing seen with
  | nil => intro x hx; simp [dedupFirstAux] at hx
  | cons a l ih =>
    intro x hx
    rw [dedupFirstAux] at hx
    split at hx
    · exact List.mem_cons_of_mem _ (ih seen x hx)
    · rcases List.mem_cons.mp hx with h | h
      · exact h ▸ List.mem_cons_self _ _
      · exact List.mem_cons_of_mem _ (ih (a :: seen) x h)

/-- Claim C5: every item id returned by `recommend_for_user` has an
absent cell in the target user's pivot row: items already rated by the
target user, at any value, are filtered out. -/
theorem claim_C5 {α : Type} [LinearOrder α] (p : Pivot) (M : SimMatrix α)
    (uid n : Nat) (t : ℚ) (i : Nat)
    (h : i ∈ recommend_for_user uid p M n t) : p.cell uid i = none := by
  by_cases huid : uid ∈ p.users
  · rw [recommend_for_user, if_pos huid] at h
    have h1 := List.mem_of_mem_take h
    obtain ⟨h2, h3⟩ := List.mem_filter.mp h1
    have h4 : i ∉ p.items.filter (fun j => (p.cell uid j).isSome) := of_decide_eq_true h3
    have h5 := mem_of_mem_dedupFirstAux _ _ _ h2
    obtain ⟨v, hv, hvi⟩ := List.mem_flatMap.mp h5
    have h6 : i ∈ p.items := (List.mem_filter.mp hvi).1
    cases hcell : p.cell uid i with
    | none => rfl
    | some r => exact absurd (List.mem_filter.mpr ⟨h6, by simp [hcell]⟩) h4
  · simp [recommend_for_user, huid] at h

/-- Witness for C5 at the spec's end-to-end example: item 30 is
recommended to user 1 and is indeed unrated by user 1. -/
theorem claim_C5_witness :
    30 ∈ recommend_for_user 1 pivotE simE 2 3 ∧ pivotE.cell 1 30 = none := by
  have hm : 30 ∈ recommend_for_user 1 pivotE simE 2 3 := by
    norm_num [pivotE, simE, recommend_for_user, similar_users, sortedRow, sortValuesDesc,
      simPairs, high_rated_items, dedupFirst, dedupFirstAux, build_pivot_table,
      ratingsFor, sortedDedup]
  exact ⟨hm, claim_C5 pivotE simE 1 2 3 30 hm⟩

/-! ### Cosine similarity lemmas -/

lemma dotQ_cons (x y : ℚ) (u v : List ℚ) :
    dotQ (x :: u) (y :: v) = x * y + dotQ u v := by
  simp [dotQ]

lemma dotQ_self_nonneg (u : List ℚ) : 0 ≤ dotQ u u := by
  induction u with
  | nil => simp [dotQ]
  | cons x u ih =>
    rw [dotQ_cons]
    exact add_nonneg (mul_self_nonneg x) ih

lemma dotQ_self_eq_zero_iff (u : List ℚ) : dotQ u u = 0 ↔ ∀ x ∈ u, x = 0 := by
  induction u with
  | nil => simp [dotQ]
  | cons x u ih =>
    rw [dotQ_cons, List.forall_mem_cons, ← ih]
    constructor
    · intro h
      have h1 := mul_self_nonneg x
      have h2 := dotQ_self_nonneg u
      refine ⟨mul_self_eq_zero.mp (by linarith), by linarith⟩
    · rintro ⟨h1, h2⟩
      rw [h1, h2]
      ring

lemma dotQ_comm (u v : List ℚ) : dotQ u v = dotQ v u := by
  unfold dotQ
  rw [List.zipWith_comm_of_comm _ mul_comm]

lemma dotQ_self_cast_pos {u : List ℚ} (h : dotQ u u ≠ 0) : 0 < (dotQ u u : ℝ) := by
  have h1 : (0 : ℝ) ≤ (dotQ u u : ℝ) := by exact_mod_cast dotQ_self_nonneg u
  have h2 : (dotQ u u : ℝ) ≠ 0 := by exact_mod_cast h
  exact lt_of_le_of_ne h1 (Ne.symm h2)

lemma cosineSim_self {u : List ℚ} (h : dotQ u u ≠ 0) : cosineSim u u = 1 := by
  rw [cosineSim, if_neg (by simp [h])]
  have hpos := dotQ_self_cast_pos h
  rw [Real.mul_self_sqrt hpos.le, div_self hpos.ne']

lemma cosineSim_zero_left {u : List ℚ} (h : dotQ u u = 0) (v : List ℚ) :
    cosineSim u v = 0 := by
  rw [cosineSim, if_pos (Or.inl h)]

lemma cosineSim_zero_right {v : List ℚ} (h : dotQ v v = 0) (u : List ℚ) :
    cosineSim u v = 0 := by
  rw [cosineSim, if_pos (Or.inr h)]

lemma cosineSim_comm (u v : List ℚ) : cosineSim u v = cosineSim v u := by
  by_cases h : dotQ u u = 0 ∨ dotQ v v = 0
  · rw [cosineSim, if_pos h, cosineSim, if_pos h.symm]
  · rw [cosineSim, if_neg h, cosineSim, if_neg (fun hc => h hc.symm)]
    rw [dotQ_comm u v, mul_comm]

lemma cosineSim_cases (u v : List ℚ) :
    cosineSim u v = 0 ∨
      (Real.sqrt (dotQ u u) * Real.sqrt (dotQ v v) ≠ 0 ∧
       cosineSim u v = (dotQ u v : ℝ) / (Real.sqrt (dotQ u u) * Real.sqrt (dotQ v v))) := by
  by_cases h : dotQ u u = 0 ∨ dotQ v v = 0
  · exact Or.inl (by rw [cosineSim, if_pos h])
  · right
    push_neg at h
    obtain ⟨h1, h2⟩ := h
    refine ⟨mul_ne_zero ?_ ?_, by rw [cosineSim, if_neg (by push_neg; exact ⟨h1, h2⟩)]⟩
    · exact Real.sqrt_ne_zero'.mpr (dotQ_self_cast_pos h1)
    · exact Real.sqrt_ne_zero'.mpr (dotQ_self_cast_pos h2)

lemma compute_user_similarity_eq_some {p : Pivot} {S : SimMatrix ℝ}
    (h : compute_user_similarity p = some S) : S = userSimilarityEntries p := by
  rw [compute_user_similarity] at h
  split at h
  · exact absurd h (by simp)
  · exact (Option.some.inj h).symm

lemma compute_item_similarity_eq_some {p : Pivot} {S : SimMatrix ℝ}
    (h : compute_item_similarity p = some S) : S = itemSimilarityEntries p := by
  rw [compute_item_similarity] at h
  split at h
  · exact absurd h (by simp)
  · exact (Option.some.inj h).symm

/-- Claim C7: in any similarity matrix the two similarity functions
return, an entity whose zero-filled rating vector is non-zero has
diagonal entry `1`; an entity whose vector is all zeros has similarity
`0` to every entity, itself included; and every entry is either the
guarded `0` or a quotient whose denominator is provably non-zero — the
computation never divides by zero and is always a well-defined real
number. -/
theorem claim_C7 (p : Pivot) (u : Nat) (S Si : SimMatrix ℝ)
    (hS : compute_user_similarity p = some S)
    (hSi : compute_item_similarity p = some Si) :
    ((∃ x ∈ rowVec p u, x ≠ 0) → S.entry u u = 1) ∧
    ((∀ x ∈ rowVec p u, x = 0) → ∀ v,
      S.entry u v = 0 ∧
      S.entry v u = 0) ∧
    (∀ v, S.entry u v = 0 ∨
      (Real.sqrt (dotQ (rowVec p u) (rowVec p u)) *
          Real.sqrt (dotQ (rowVec p v) (rowVec p v)) ≠ 0 ∧
       S.entry u v =
         (dotQ (rowVec p u) (rowVec p v) : ℝ) /
           (Real.sqrt (dotQ (rowVec p u) (rowVec p u)) *
             Real.sqrt (dotQ (rowVec p v) (rowVec p v))))) ∧
    ((∃ x ∈ colVec p u, x ≠ 0) → Si.entry u u = 1) ∧
    ((∀ x ∈ colVec p u, x = 0) → ∀ v,
      Si.entry u v = 0 ∧
      Si.entry v u = 0) ∧
    (∀ v, Si.entry u v = 0 ∨
      (Real.sqrt (dotQ (colVec p u) (colVec p u)) *
          Real.sqrt (dotQ (colVec p v) (colVec p v)) ≠ 0 ∧
       Si.entry u v =
         (dotQ (colVec p u) (colVec p v) : ℝ) /
           (Real.sqrt (dotQ (colVec p u) (colVec p u)) *
             Real.sqrt (dotQ (colVec p v) (colVec p v))))) := by
  rw [compute_user_similarity_eq_some hS, compute_item_similarity_eq_some hSi]
  refine ⟨?_, ?_, ?_, ?_, ?_, ?_⟩
  · intro h
    obtain ⟨x, hx, hxne⟩ := h
    exact cosineSim_self fun h0 => hxne ((dotQ_self_eq_zero_iff _).mp h0 x hx)
  · intro h v
    have h0 := (dotQ_self_eq_zero_iff (rowVec p u)).mpr h
    exact ⟨cosineSim_zero_left h0 _, cosineSim_zero_right h0 _⟩
  · intro v
    exact cosineSim_cases (rowVec p u) (rowVec p v)
  · intro h
    obtain ⟨x, hx, hxne⟩ := h
    exact cosineSim_self fun h0 => hxne ((dotQ_self_eq_zero_iff _).mp h0 x hx)
  · intro h v
    have h0 := (dotQ_self_eq_zero_iff (colVec p u)).mpr h
    exact ⟨cosineSim_zero_left h0 _, cosineSim_zero_right h0 _⟩
  · intro v
    exact cosineSim_cases (colVec p u) (colVec p v)

/-- Witness for C7 on `pivotZ`: user 1 has vector `[3]` (diagonal `1`),
user 2 has the all-absent vector `[0]` (self-similarity `0`). -/
theorem claim_C7_witness :
    (userSimilarityEntries pivotZ).entry 1 1 = 1 ∧
    (userSimilarityEntries pivotZ).entry 2 2 = 0 := by
  have hS : compute_user_similarity pivotZ = some (userSimilarityEntries pivotZ) := by
    rw [compute_user_similarity, if_neg (by decide)]
  have hSi : compute_item_similarity pivotZ = some (itemSimilarityEntries pivotZ) := by
    rw [compute_item_similarity, if_neg (by decide)]
  exact ⟨(claim_C7 pivotZ 1 _ _ hS hSi).1 (by decide),
    (((claim_C7 pivotZ 2 _ _ hS hSi).2.1 (by decide)) 2).1⟩

/-- Claim C8: any matrices the two similarity functions return are
square — a single id list, equal to the corresponding pivot axis,
indexes rows and columns — and symmetric: `sim(a,b) = sim(b,a)` for all
`a, b`. -/
theorem claim_C8 (p : Pivot) (a b : Nat) (S Si : SimMatrix ℝ)
    (hS : compute_user_similarity p = some S)
    (hSi : compute_item_similarity p = some Si) :
    S.ids = p.users ∧
    Si.ids = p.items ∧
    S.entry a b = S.entry b a ∧
    Si.entry a b = Si.entry b a := by
  rw [compute_user_similarity_eq_some hS, compute_item_similarity_eq_some hSi]
  exact ⟨rfl, rfl, cosineSim_comm _ _, cosineSim_comm _ _⟩

/-- Witness for C8 on `pivotZ`: the returned matrices are indexed by the
pivot axes and symmetric at `(1, 2)`. -/
theorem claim_C8_witness :
    (userSimilarityEntries pivotZ).ids = pivotZ.users ∧
    (itemSimilarityEntries pivotZ).ids = pivotZ.items ∧
    (userSimilarityEntries pivotZ).entry 1 2 = (userSimilarityEntries pivotZ).entry 2 1 ∧
    (itemSimilarityEntries pivotZ).entry 1 2 = (itemSimilarityEntries pivotZ).entry 2 1 :=
  claim_C8 pivotZ 1 2 _ _ (by rw [compute_user_similarity, if_neg (by decide)])
    (by rw [compute_item_similarity, if_neg (by decide)])

/-! ### The descending sort and the dropped first entry -/

lemma orderedInsert_append_max {α : Type} [LinearOrder α] (a x : Nat × α)
    (s : List (Nat × α)) (hax : a.2 ≤ x.2) :
    List.orderedInsert (fun p q => p.2 ≤ q.2) a (s ++ [x]) =
      List.orderedInsert (fun p q => p.2 ≤ q.2) a s ++ [x] := by
  induction s with
  | nil => simp [List.orderedInsert, hax]
  | cons b s ih =>
    by_cases h : a.2 ≤ b.2
    · simp [List.orderedInsert, h]
    · simp [List.orderedInsert, h, ih]

lemma orderedInsert_max {α : Type} [LinearOrder α] (x : Nat × α)
    (s : List (Nat × α)) (h : ∀ y ∈ s, y.2 < x.2) :
    List.orderedInsert (fun p q => p.2 ≤ q.2) x s = s ++ [x] := by
  induction s with
  | nil => simp [List.orderedInsert]
  | cons b s ih =>
    have hb : ¬x.2 ≤ b.2 := not_le.mpr (h b (List.mem_cons_self _ _))
    have hs := ih fun y hy => h y (List.mem_cons_of_mem _ hy)
    simp [List.orderedInsert, hb, hs]

/-- When `f a` carries a strictly larger value than every other mapped
element, the ascending stable sort puts it last, in front of the sorted
remaining elements. -/
lemma insertionSort_filter_max {α : Type} [LinearOrder α] (f : Nat → Nat × α) (a : Nat) :
    ∀ l : List Nat, l.Nodup → a ∈ l → (∀ v ∈ l, v ≠ a → (f v).2 < (f a).2) →
      List.insertionSort (fun p q => p.2 ≤ q.2) (l.map f) =
        List.insertionSort (fun p q => p.2 ≤ q.2)
          ((l.filter (fun v => v != a)).map f) ++ [f a] := by
  intro l
  induction l with
  | nil => intro _ ha _; exact absurd ha (List.not_mem_nil a)
  | cons b l ih =>
    intro hnd hmem hmax
    by_cases hba : b = a
    · subst hba
      have hbl : b ∉ l := (List.nodup_cons.mp hnd).1
      have hfilter : l.filter (fun v => v != b) = l := by
        apply List.filter_eq_self.mpr
        intro v hv
        simp [ne_of_mem_of_not_mem hv hbl]
      have hstep : (b :: l).filter (fun v => v != b) = l := by
        rw [List.filter_cons]
        simp [hfilter]
      rw [hstep]
      simp only [List.map_cons, List.insertionSort]
      apply orderedInsert_max
      intro y hy
      have hy' : y ∈ l.map f := (List.perm_insertionSort _ _).mem_iff.mp hy
      obtain ⟨v, hv, rfl⟩ := List.mem_map.mp hy'
      exact hmax v (List.mem_cons_of_mem _ hv) (ne_of_mem_of_not_mem hv hbl)
    · have hal : a ∈ l := by
        rcases List.mem_cons.mp hmem with h | h
        · exact absurd h.symm hba
        · exact h
      have hnd' := (List.nodup_cons.mp hnd).2
      have hmax' : ∀ v ∈ l, v ≠ a → (f v).2 < (f a).2 :=
        fun v hv => hmax v (List.mem_cons_of_mem _ hv)
      have hb2 : (f b).2 ≤ (f a).2 := le_of_lt (hmax b (List.mem_cons_self _ _) hba)
      have hstep : (b :: l).filter (fun v => v != a) = b :: l.filter (fun v => v != a) := by
        rw [List.filter_cons]
        simp [hba]
      rw [hstep]
      simp only [List.map_cons, List.insertionSort]
      rw [ih hnd' hal hmax', orderedInsert_append_max _ _ _ hb2]

/-- With a strict maximum at the diagonal, the descending-sorted row
starts with the diagonal pair, followed by the descending-sorted
remaining pairs. -/
lemma sortedRow_strict_max {α : Type} [LinearOrder α] (M : SimMatrix α) (a : Nat)
    (h1 : M.ids.Nodup) (h2 : a ∈ M.ids)
    (h3 : ∀ v ∈ M.ids, v ≠ a → M.entry a v < M.entry a a) :
    sortedRow M a = (a, M.entry a a) ::
      sortValuesDesc ((M.ids.filter (fun v => v != a)).map (fun v => (v, M.entry a v))) := by
  unfold sortedRow sortValuesDesc simPairs
  rw [insertionSort_filter_max (fun v => (v, M.entry a v)) a M.ids h1 h2
    (fun v hv hva => h3 v hv hva)]
  rw [List.reverse_append]
  simp

lemma not_mem_rankOthersDesc {α : Type} [LinearOrder α] (M : SimMatrix α) (a : Nat) :
    a ∉ rankOthersDesc M a := by
  intro h
  unfold rankOthersDesc sortValuesDesc at h
  obtain ⟨pair, hpair, hfst⟩ := List.mem_map.mp h
  rw [List.mem_reverse] at hpair
  have hmem := (List.perm_insertionSort _ _).mem_iff.mp hpair
  obtain ⟨v, hv, rfl⟩ := List.mem_map.mp hmem
  have hvne : v ≠ a := by simpa using List.of_mem_filter hv
  exact hvne hfst

/-- Evaluation helper: cosine similarity through a known factorisation
of the two self-dot-products into perfect squares. -/
lemma cosineSim_eval {u v : List ℚ} {a b : ℚ} (ha : 0 < a) (hb : 0 < b)
    (hu : dotQ u u = a * a) (hv : dotQ v v = b * b) :
    cosineSim u v = (dotQ u v : ℝ) / ((a : ℝ) * b) := by
  have hu0 : dotQ u u ≠ 0 := by rw [hu]; positivity
  have hv0 : dotQ v v ≠ 0 := by rw [hv]; positivity
  rw [cosineSim, if_neg (by simp [hu0, hv0]), hu, hv]
  have haR : (0 : ℝ) ≤ (a : ℝ) := by exact_mod_cast ha.le
  have hbR : (0 : ℝ) ≤ (b : ℝ) := by exact_mod_cast hb.le
  push_cast
  rw [Real.sqrt_mul_self haR, Real.sqrt_mul_self hbR]

/-- Claim C2, amended: `recommend_for_user` drops the first entry of the
descending-sorted similarity row.  When `uid`'s self-similarity is a
strict maximum of its row (and the index has no duplicates), the dropped
entry is `uid` itself: the neighbor walk is exactly all other users
ranked by descending similarity (equal similarities in reverse index
order) and never contains `uid`.  Without a strict maximum — similarity
ties at the top — another user can be dropped instead and `uid` itself
walked, as `claim_C2_counterexample` shows. -/
theorem claim_C2 {α : Type} [LinearOrder α] (M : SimMatrix α) (uid : Nat)
    (h1 : M.ids.Nodup) (h2 : uid ∈ M.ids)
    (h3 : ∀ v ∈ M.ids, v ≠ uid → M.entry uid v < M.entry uid uid) :
    similar_users M uid = rankOthersDesc M uid ∧ uid ∉ similar_users M uid := by
  have hrow := sortedRow_strict_max M uid h1 h2 h3
  have heq : similar_users M uid = rankOthersDesc M uid := by
    unfold similar_users
    rw [hrow]
    rfl
  exact ⟨heq, heq ▸ not_mem_rankOthersDesc M uid⟩

/-- Witness for the amended C2 at a matrix whose diagonal strictly
dominates its row. -/
theorem claim_C2_witness :
    similar_users simMax 1 = rankOthersDesc simMax 1 ∧ 1 ∉ similar_users simMax 1 :=
  claim_C2 simMax 1 (by decide) (by decide) (by decide)

/-- Counterexample to C2 as stated: in `pivotTie`, users 1 and 2 have
proportional rating vectors `[4]` and `[5]`, so every cosine similarity
is exactly `1` — the matrix `simTie` is entry-for-entry the one
`compute_user_similarity` produces.  The descending sort of user 1's row
puts user 2 first (stable ascending order reversed), `.iloc[1:]` drops
user 2, and the neighbor walk is `[1]`: it contains `user_id` itself and
omits the other user, contradicting "ranks all other users … and
excludes user_id itself from the neighbor walk". -/
theorem claim_C2_counterexample :
    1 ∈ pivotTie.users ∧ 2 ∈ pivotTie.users ∧
    compute_user_similarity pivotTie = some (userSimilarityEntries pivotTie) ∧
    (userSimilarityEntries pivotTie).ids = simTie.ids ∧
    (userSimilarityEntries pivotTie).entry 1 1 = ((simTie.entry 1 1 : ℚ) : ℝ) ∧
    (userSimilarityEntries pivotTie).entry 1 2 = ((simTie.entry 1 2 : ℚ) : ℝ) ∧
    (userSimilarityEntries pivotTie).entry 2 1 = ((simTie.entry 2 1 : ℚ) : ℝ) ∧
    (userSimilarityEntries pivotTie).entry 2 2 = ((simTie.entry 2 2 : ℚ) : ℝ) ∧
    similar_users simTie 1 = [1] ∧
    2 ∉ similar_users simTie 1 := by
  have hr1 : rowVec pivotTie 1 = [4] := by
    norm_num [rowVec, pivotTie, build_pivot_table, ratingsFor, sortedDedup]
  have hr2 : rowVec pivotTie 2 = [5] := by
    norm_num [rowVec, pivotTie, build_pivot_table, ratingsFor, sortedDedup]
  have e11 : cosineSim [(4 : ℚ)] [4] = 1 := cosineSim_self (by norm_num [dotQ])
  have e22 : cosineSim [(5 : ℚ)] [5] = 1 := cosineSim_self (by norm_num [dotQ])
  have e12 : cosineSim [(4 : ℚ)] [5] = 1 := by
    rw [cosineSim_eval (a := 4) (b := 5) (by norm_num) (by norm_num)
      (by norm_num [dotQ]) (by norm_num [dotQ])]
    norm_num [dotQ]
  have e21 : cosineSim [(5 : ℚ)] [4] = 1 := by
    rw [cosineSim_eval (a := 5) (b := 4) (by norm_num) (by norm_num)
      (by norm_num [dotQ]) (by norm_num [dotQ])]
    norm_num [dotQ]
  refine ⟨by decide, by decide, by rw [compute_user_similarity, if_neg (by decide)],
    by decide, ?_, ?_, ?_, ?_, by decide, by decide⟩
  · show cosineSim (rowVec pivotTie 1) (rowVec pivotTie 1) = ((1 : ℚ) : ℝ)
    rw [hr1, e11]
    norm_num
  · show cosineSim (rowVec pivotTie 1) (rowVec pivotTie 2) = ((1 : ℚ) : ℝ)
    rw [hr1, hr2, e12]
    norm_num
  · show cosineSim (rowVec pivotTie 2) (rowVec pivotTie 1) = ((1 : ℚ) : ℝ)
    rw [hr1, hr2, e21]
    norm_num
  · show cosineSim (rowVec pivotTie 2) (rowVec pivotTie 2) = ((1 : ℚ) : ℝ)
    rw [hr2, e22]
    norm_num

/-- Claim C3, amended: `recommend_similar_items` drops the first entry
of the descending-sorted similarity row.  When `item_id`'s
self-similarity is a strict maximum of its row (and the index has no
duplicates), the result is the first `n` of all other items ranked by
descending similarity, excluding `item_id` — but equal-similarity ties
appear in REVERSE of the matrix's natural row order, not in row order.
Without a strict maximum, another item is dropped instead and `item_id`
itself can be returned, as `claim_C3_counterexample` shows. -/
theorem claim_C3 {α : Type} [LinearOrder α] (M : SimMatrix α) (iid n : Nat)
    (h1 : M.ids.Nodup) (h2 : iid ∈ M.ids)
    (h3 : ∀ v ∈ M.ids, v ≠ iid → M.entry iid v < M.entry iid iid) :
    recommend_similar_items iid M n = (rankOthersDesc M iid).take n ∧
    iid ∉ recommend_similar_items iid M n := by
  have hrow := sortedRow_strict_max M iid h1 h2 h3
  have heq : recommend_similar_items iid M n = (rankOthersDesc M iid).take n := by
    unfold recommend_similar_items
    rw [if_pos h2, hrow]
    rfl
  refine ⟨heq, ?_⟩
  rw [heq]
  intro hmem
  exact not_mem_rankOthersDesc M iid (List.mem_of_mem_take hmem)

/-- Witness for the amended C3 at a matrix whose diagonal strictly
dominates its row. -/
theorem claim_C3_witness :
    recommend_similar_items 10 simMaxI 2 = (rankOthersDesc simMaxI 10).take 2 ∧
    10 ∉ recommend_similar_items 10 simMaxI 2 :=
  claim_C3 simMaxI 10 2 (by decide) (by decide) (by decide)

/-- Counterexample to C3 as stated, in two concrete instances whose `ℚ`
matrices are proved entry-for-entry equal (on the row that is read) to
the cosine matrices of real pivots.
Instance A (`pivotA`/`simA`): one user rated items 10, 20, 30, so all
item similarities are `1`; `recommend_similar_items 10 _ 3` returns
`[20, 10]` — it contains item 10 itself and omits item 30, contradicting
"excluding item_id itself" and "first n ids of all other items".
Instance B (`pivotB`/`simB`): the diagonal is a strict maximum and items
20 and 30 tie at similarity `4/5`; the result is `[30, 20]`, the REVERSE
of the matrix's natural row order `[20, 30]`, contradicting the claimed
tie-break. -/
theorem claim_C3_counterexample :
    compute_item_similarity pivotA = some (itemSimilarityEntries pivotA) ∧
    (itemSimilarityEntries pivotA).ids = simA.ids ∧
    (itemSimilarityEntries pivotA).entry 10 10 = ((simA.entry 10 10 : ℚ) : ℝ) ∧
    (itemSimilarityEntries pivotA).entry 10 20 = ((simA.entry 10 20 : ℚ) : ℝ) ∧
    (itemSimilarityEntries pivotA).entry 10 30 = ((simA.entry 10 30 : ℚ) : ℝ) ∧
    recommend_similar_items 10 simA 3 = [20, 10] ∧
    10 ∈ recommend_similar_items 10 simA 3 ∧
    30 ∉ recommend_similar_items 10 simA 3 ∧
    compute_item_similarity pivotB = some (itemSimilarityEntries pivotB) ∧
    (itemSimilarityEntries pivotB).ids = simB.ids ∧
    (itemSimilarityEntries pivotB).entry 10 10 = ((simB.entry 10 10 : ℚ) : ℝ) ∧
    (itemSimilarityEntries pivotB).entry 10 20 = ((simB.entry 10 20 : ℚ) : ℝ) ∧
    (itemSimilarityEntries pivotB).entry 10 30 = ((simB.entry 10 30 : ℚ) : ℝ) ∧
    recommend_similar_items 10 simB 2 = [30, 20] := by
  have hA10 : colVec pivotA 10 = [4] := by
    norm_num [colVec, pivotA, build_pivot_table, ratingsFor, sortedDedup]
  have hA20 : colVec pivotA 20 = [5] := by
    norm_num [colVec, pivotA, build_pivot_table, ratingsFor, sortedDedup]
  have hA30 : colVec pivotA 30 = [2] := by
    norm_num [colVec, pivotA, build_pivot_table, ratingsFor, sortedDedup]
  have hB10 : colVec pivotB 10 = [3, 4] := by
    norm_num [colVec, pivotB, build_pivot_table, ratingsFor, sortedDedup]
  have hB20 : colVec pivotB 20 = [0, 1] := by
    norm_num [colVec, pivotB, build_pivot_table, ratingsFor, sortedDedup]
  have hB30 : colVec pivotB 30 = [0, 2] := by
    norm_num [colVec, pivotB, build_pivot_table, ratingsFor, sortedDedup]
  refine ⟨by rw [compute_item_similarity, if_neg (by decide)],
    by decide, ?_, ?_, ?_, by decide, by decide, by decide,
    by rw [compute_item_similarity, if_neg (by decide)],
    by decide, ?_, ?_, ?_, ?_⟩
  · show cosineSim (colVec pivotA 10) (colVec pivotA 10) = ((simA.entry 10 10 : ℚ) : ℝ)
    rw [hA10, cosineSim_self (by norm_num [dotQ])]
    norm_num [simA]
  · show cosineSim (colVec pivotA 10) (colVec pivotA 20) = ((simA.entry 10 20 : ℚ) : ℝ)
    rw [hA10, hA20, cosineSim_eval (a := 4) (b := 5) (by norm_num) (by norm_num)
      (by norm_num [dotQ]) (by norm_num [dotQ])]
    norm_num [simA, dotQ]
  · show cosineSim (colVec pivotA 10) (colVec pivotA 30) = ((simA.entry 10 30 : ℚ) : ℝ)
    rw [hA10, hA30, cosineSim_eval (a := 4) (b := 2) (by norm_num) (by norm_num)
      (by norm_num [dotQ]) (by norm_num [dotQ])]
    norm_num [simA, dotQ]
  · show cosineSim (colVec pivotB 10) (colVec pivotB 10) = ((simB.entry 10 10 : ℚ) : ℝ)
    rw [hB10, cosineSim_self (by norm_num [dotQ])]
    norm_num [simB]
  · show cosineSim (colVec pivotB 10) (colVec pivotB 20) = ((simB.entry 10 20 : ℚ) : ℝ)
    rw [hB10, hB20, cosineSim_eval (a := 5) (b := 1) (by norm_num) (by norm_num)
      (by norm_num [dotQ]) (by norm_num [dotQ])]
    norm_num [simB, dotQ]
  · show cosineSim (colVec pivotB 10) (colVec pivotB 30) = ((simB.entry 10 30 : ℚ) : ℝ)
    rw [hB10, hB30, cosineSim_eval (a := 5) (b := 2) (by norm_num) (by norm_num)
      (by norm_num [dotQ]) (by norm_num [dotQ])]
    norm_num [simB, dotQ]
  · norm_num [simB, recommend_similar_items, sortedRow, sortValuesDesc, simPairs]
